import Mathlib

/-!
Shallow embedding of the SentryAI detection and alert pipeline
(source: src/src/App.tsx).

The pipeline state held in React state hooks and refs is collected in
`AppState`; the per-tick work of `detectMotion` is split into the audio
path (`audioStep`, lines 185-219 of the source), the motion path
(`motionStep`, lines 221-288) and the shared candidate-acceptance block
(`acceptCandidate`, lines 194-217 and 264-283, which are textually
duplicated in the source).  The asynchronous `analyzeFrame` is modelled
by its two synchronous halves: `analyzeFrameStart` (the single-flight
check and flag set, lines 130-131) and `analyzeFrameFinish` (the
response handling, catch and finally, lines 155-173); the network
round-trip and the host JSON parser are inputs to the finish half.
Machine timestamps are naturals; arithmetic on them is done in the
integers, matching JavaScript number arithmetic on the values involved.
Scores are rationals.
-/

namespace SentryAI

/-- The DetectionEvent record of the source (lines 31-37); the
timestamp is milliseconds since the epoch. -/
structure DetectionEvent where
  id : String
  timestamp : ℕ
  image : String
  isSuspicious : Bool
  reason : String
deriving DecidableEq

/-- An RGBA raster sample: `ImageData` from the canvas, with `data` the
flat byte array (4 bytes per pixel). -/
structure Raster where
  width : ℕ
  height : ℕ
  data : List ℕ
deriving DecidableEq

/-- The user configuration read by the pipeline each tick: the
`sensitivity`, `audioSensitivity` and `isSmartGuard` state hooks. -/
structure Config where
  sensitivity : ℕ
  audioSensitivity : ℕ
  isSmartGuard : Bool
deriving DecidableEq

/-- The parsed verifier response object. -/
structure VerifyResult where
  isSuspicious : Bool
  reason : String
deriving DecidableEq

/-- The pipeline run state: the React state hooks and refs of `App`
that the detection pipeline reads and writes. -/
structure AppState where
  isMonitoring : Bool
  isSuspicious : Bool
  events : List DetectionEvent
  isAnalyzing : Bool
  prevFrame : Option Raster
  lastFrameTime : ℕ
  lastDetectionTime : ℕ
  currentMotionLevel : ℚ
  audioLevel : ℚ
  hasStream : Bool
deriving DecidableEq

/-- Log insertion, source line 167, 214 and 281:
`setEvents(prev => [newEvent, ...prev].slice(0, 50))`. -/
def insertEvent (e : DetectionEvent) (log : List DetectionEvent) :
    List DetectionEvent :=
  (e :: log).take 50

/-- Inserting a sequence of events into a log, oldest first. -/
def insertAll (log : List DetectionEvent) (es : List DetectionEvent) :
    List DetectionEvent :=
  es.foldl (fun acc e => insertEvent e acc) log

/-- The cooldown window, source lines 194 and 264:
`isSmartGuard ? 1000 : 300` (milliseconds). -/
def cooldownWindow (cfg : Config) : ℕ :=
  if cfg.isSmartGuard then 1000 else 300

/-- First half of `analyzeFrame` (source lines 130-131): the
single-flight check and the setting of the in-flight flag.  Returns
whether the call proceeded together with the updated state. -/
def analyzeFrameStart (s : AppState) : Bool × AppState :=
  if s.isAnalyzing then (false, s)
  else (true, { s with isAnalyzing := true })

/-- Index of the first occurrence of a character in a list, if any. -/
def charIndexFrom : List Char → Char → Option ℕ
  | [], _ => none
  | a :: t, c => if a = c then some 0 else (charIndexFrom t c).map (· + 1)

/-- JavaScript `String.prototype.indexOf` for a single character, on the
character list of the text: the first index, or -1. -/
def jsIndexOf (cs : List Char) (c : Char) : Int :=
  match charIndexFrom cs c with
  | some i => (i : Int)
  | none => -1

/-- JavaScript `String.prototype.lastIndexOf` for a single character:
the last index, or -1. -/
def jsLastIndexOf (cs : List Char) (c : Char) : Int :=
  match charIndexFrom cs.reverse c with
  | some i => ((cs.length - 1 - i : ℕ) : Int)
  | none => -1

/-- JavaScript `String.prototype.substring`: both arguments are clamped
to the range 0..length and swapped when out of order; the slice is
half-open. -/
def jsSubstring (cs : List Char) (a b : Int) : List Char :=
  let n : Int := cs.length
  let a1 := (min (max a 0) n).toNat
  let b1 := (min (max b 0) n).toNat
  (cs.take (max a1 b1)).drop (min a1 b1)

/-- The verifier adapter's JSON extraction, source line 156:
`text.substring(text.indexOf(lbrace), text.lastIndexOf(rbrace) + 1)`
where lbrace and rbrace are the brace characters. -/
def extractJson (cs : List Char) : List Char :=
  jsSubstring cs (jsIndexOf cs '\x7b') (jsLastIndexOf cs '\x7d' + 1)

/-- Second half of `analyzeFrame` (source lines 155-173).  `parse`
models the host JSON parser applied to the extracted text (`none` when
`JSON.parse` throws); `reqResult` is `none` when the network request
itself threw, otherwise the raw response text (`response.text`, with
the empty string standing in for a missing or empty text, which the
source replaces by a pair of braces before parsing).  Both failure
paths land in the catch block, which changes nothing; the finally block
clears the in-flight flag on every path. -/
def analyzeFrameFinish (parse : List Char → Option VerifyResult)
    (reqResult : Option String) (snap : String) (now : ℕ) (eid : String)
    (s : AppState) : AppState :=
  let s1 :=
    match reqResult with
    | none => s
    | some raw =>
      let text := if raw = "" then "\x7b\x7d" else raw
      match parse (extractJson text.toList) with
      | none => s
      | some r =>
        if r.isSuspicious then
          { s with
            isSuspicious := true,
            events := insertEvent
              ⟨eid, now, snap, true,
               if r.reason = "" then "Person detected" else r.reason⟩
              s.events }
        else s
  { s1 with isAnalyzing := false }

/-- The candidate-acceptance block shared by the audio path (source
lines 194-217) and the motion path (source lines 264-283): the cooldown
check, the immediate update of the last-detection clock, and then
either the verification call (smart guard) or the instant alert. -/
def acceptCandidate (cfg : Config) (now : ℕ) (snap eid reason : String)
    (s : AppState) : AppState :=
  if (now : ℤ) - (s.lastDetectionTime : ℤ) > (cooldownWindow cfg : ℤ) then
    let s1 := { s with lastDetectionTime := now }
    if cfg.isSmartGuard then (analyzeFrameStart s1).2
    else
      { s1 with
        isSuspicious := true,
        events := insertEvent ⟨eid, now, snap, true, reason⟩ s1.events }
  else s

/-- The peak of the audio buffer, source line 189:
`Math.max(...Array.from(dataArray))` over the byte-frequency data. -/
def audioPeak (buf : List ℕ) : ℕ :=
  buf.foldr Nat.max 0

/-- The normalized audio level, source line 190:
`(max / 255) * 100`. -/
def audioScore (buf : List ℕ) : ℚ :=
  (audioPeak buf : ℚ) / 255 * 100

/-- The audio path of a tick, source lines 185-219: compute and publish
the peak level, then run the candidate gate against the audio
threshold `100 - audioSensitivity`. -/
def audioStep (cfg : Config) (now : ℕ) (buf : List ℕ) (snap eid : String)
    (s : AppState) : AppState :=
  let level := audioScore buf
  let s1 := { s with audioLevel := level }
  if level > (100 : ℚ) - (cfg.audioSensitivity : ℚ) then
    acceptCandidate cfg now snap eid "Instant Sound Alert" s1
  else s1

/-- The byte indices sampled by the motion loop, source line 243:
`for (let i = 0; i < data.length; i += 16)`. -/
def sampledIndices (n : ℕ) : List ℕ :=
  (List.range n).filter (fun i => i % 16 == 0)

/-- Absolute per-channel difference at byte index `i`, source lines
244-246 (out-of-range reads yield 0, as the loop never exceeds the
buffer in the source). -/
def pixChannelDiff (d p : List ℕ) (i : ℕ) : ℕ :=
  ((d.getD i 0 : ℤ) - (p.getD i 0 : ℤ)).natAbs

/-- The per-pixel change test, source line 249:
`rDiff + gDiff + bDiff > 45`. -/
def bigDiff (d p : List ℕ) (i : ℕ) : Bool :=
  decide (45 < pixChannelDiff d p i + pixChannelDiff d p (i + 1)
    + pixChannelDiff d p (i + 2))

/-- The changed-pixel count `diff` of the motion loop, source lines
238-250. -/
def changedCount (d p : List ℕ) : ℕ :=
  ((sampledIndices d.length).filter (bigDiff d p)).length

/-- The motion level, source line 253:
`(diff / (canvas.width * canvas.height / 4)) * 100`; the current frame
is read from the canvas so its dimensions are the canvas's. -/
def motionScore (prev cur : Raster) : ℚ :=
  (changedCount cur.data prev.data : ℚ)
    / ((cur.width * cur.height : ℚ) / 4) * 100

/-- The motion threshold, source line 258:
`Math.max(0.5, (100 - sensitivity) / 2)`. -/
def motionThreshold (sensitivity : ℕ) : ℚ :=
  max (1 / 2) (((100 : ℚ) - (sensitivity : ℚ)) / 2)

/-- The motion path of a tick, source lines 221-288: the 100ms cadence
gate, the first-frame case (no previous raster: store the current one
and do nothing else), the motion score and threshold, the candidate
gate, and the rotation of the previous frame. -/
def motionStep (cfg : Config) (now : ℕ) (frame : Raster)
    (snap eid : String) (s : AppState) : AppState :=
  if (now : ℤ) - (s.lastFrameTime : ℤ) < 100 then s
  else
    let s1 := { s with lastFrameTime := now }
    match s1.prevFrame with
    | none => { s1 with prevFrame := some frame }
    | some prev =>
      let level := motionScore prev frame
      let s2 := { s1 with currentMotionLevel := level }
      let s3 :=
        if level > motionThreshold cfg.sensitivity then
          acceptCandidate cfg now snap eid "Instant Motion Alert" s2
        else s2
      { s3 with prevFrame := some frame }

/-- One tick of the `detectMotion` loop, source lines 179-289: the
monitoring guard, then the audio path (when an analyser exists),
then the motion path. -/
def detectMotion (cfg : Config) (now : ℕ) (audioBuf : Option (List ℕ))
    (frame : Raster) (snap eid : String) (s : AppState) : AppState :=
  if s.isMonitoring = false then s
  else
    let s1 :=
      match audioBuf with
      | none => s
      | some buf => audioStep cfg now buf snap eid s
    motionStep cfg now frame snap eid s1

/-- Session stop, source lines 115-121: stop the media tracks, close
the audio context, drop the stream, clear the monitoring and alarm
flags.  Nothing else is touched. -/
def stopCamera (s : AppState) : AppState :=
  { s with hasStream := false, isMonitoring := false, isSuspicious := false }

/-- A concrete configuration for concrete evaluations: the default
slider values of the source (sensitivity 85, audio sensitivity 60)
with smart guard on. -/
def testConfig : Config := ⟨85, 60, true⟩

/-- The same configuration with smart guard off. -/
def testConfigInstant : Config := ⟨85, 60, false⟩

/-- A concrete monitoring state with last detection at 1000ms. -/
def testState : AppState :=
  ⟨true, false, [], false, none, 0, 1000, 0, 0, true⟩

/-- A concrete 2x2 raster whose first sampled pixel differs strongly
from `testFrameB`. -/
def testFrameA : Raster :=
  ⟨2, 2, [50, 0, 0, 0, 9, 9, 9, 9, 0, 0, 0, 0, 0, 0, 0, 0]⟩

/-- A concrete all-zero 2x2 raster. -/
def testFrameB : Raster :=
  ⟨2, 2, List.replicate 16 0⟩

/-- A concrete monitoring state holding `testFrameA` as the previous
raster. -/
def testStateM : AppState :=
  ⟨true, false, [], false, some testFrameA, 0, 1000, 0, 0, true⟩

/-- A concrete state with a verification in flight. -/
def testStateA : AppState :=
  ⟨true, false, [], true, none, 0, 1000, 0, 0, true⟩

/-- A concrete state carrying leftover session data, as left behind by
a session in progress: a previous raster, nonzero scores, a nonzero
cooldown clock. -/
def testStateC : AppState :=
  ⟨true, true, [], false, some testFrameA, 400, 777, 5, 9, true⟩

/-- A concrete event for log experiments. -/
def testEvent : DetectionEvent := ⟨"", 999, "", true, ""⟩

/-- Fifty pairwise distinct concrete events. -/
def testEvents : List DetectionEvent :=
  (List.range 50).map (fun n => ⟨"", n, "", true, ""⟩)

/-! Helper lemmas. -/

theorem analyzeFrameStart_snd_lastDetectionTime (s : AppState) :
    ((analyzeFrameStart s).2).lastDetectionTime = s.lastDetectionTime := by
  unfold analyzeFrameStart; split <;> rfl

theorem analyzeFrameStart_snd_events (s : AppState) :
    ((analyzeFrameStart s).2).events = s.events := by
  unfold analyzeFrameStart; split <;> rfl

theorem analyzeFrameStart_snd_isSuspicious (s : AppState) :
    ((analyzeFrameStart s).2).isSuspicious = s.isSuspicious := by
  unfold analyzeFrameStart; split <;> rfl

theorem analyzeFrameStart_of_inflight (s : AppState)
    (h : s.isAnalyzing = true) : analyzeFrameStart s = (false, s) := by
  unfold analyzeFrameStart; rw [if_pos h]

theorem acceptCandidate_of_not_cooldown (cfg : Config) (now : ℕ)
    (snap eid reason : String) (s : AppState)
    (h : (now : ℤ) - (s.lastDetectionTime : ℤ) ≤ (cooldownWindow cfg : ℤ)) :
    acceptCandidate cfg now snap eid reason s = s := by
  unfold acceptCandidate
  rw [if_neg (not_lt.2 h)]

theorem acceptCandidate_lastDetectionTime_of_cooldown (cfg : Config)
    (now : ℕ) (snap eid reason : String) (s : AppState)
    (h : (now : ℤ) - (s.lastDetectionTime : ℤ) > (cooldownWindow cfg : ℤ)) :
    (acceptCandidate cfg now snap eid reason s).lastDetectionTime = now := by
  unfold acceptCandidate
  rw [if_pos h]
  split
  · rw [analyzeFrameStart_snd_lastDetectionTime]
  · rfl

theorem acceptCandidate_lastDetectionTime_ne (cfg : Config) (now : ℕ)
    (snap eid reason : String) (s : AppState)
    (hne : s.lastDetectionTime ≠ now) :
    (acceptCandidate cfg now snap eid reason s).lastDetectionTime = now
      ↔ (now : ℤ) - (s.lastDetectionTime : ℤ) > (cooldownWindow cfg : ℤ) := by
  constructor
  · intro h
    by_contra hc
    rw [acceptCandidate_of_not_cooldown cfg now snap eid reason s
      (not_lt.1 hc)] at h
    exact hne h
  · exact acceptCandidate_lastDetectionTime_of_cooldown cfg now snap eid
      reason s

theorem acceptCandidate_instant (cfg : Config) (now : ℕ)
    (snap eid reason : String) (s : AppState)
    (hsg : cfg.isSmartGuard = false)
    (hcool : (now : ℤ) - (s.lastDetectionTime : ℤ)
      > (cooldownWindow cfg : ℤ)) :
    acceptCandidate cfg now snap eid reason s
      = { s with
          lastDetectionTime := now,
          isSuspicious := true,
          events := insertEvent ⟨eid, now, snap, true, reason⟩ s.events } := by
  unfold acceptCandidate
  rw [if_pos hcool, if_neg (by simp [hsg])]

theorem motionStep_fires_iff (cfg : Config) (now : ℕ)
    (frame prev : Raster) (snap eid : String) (s : AppState)
    (hprev : s.prevFrame = some prev)
    (hcad : ¬ ((now : ℤ) - (s.lastFrameTime : ℤ) < 100))
    (hcool : (now : ℤ) - (s.lastDetectionTime : ℤ)
      > (cooldownWindow cfg : ℤ))
    (hne : s.lastDetectionTime ≠ now) :
    ((motionStep cfg now frame snap eid s).lastDetectionTime = now
      ↔ motionScore prev frame > motionThreshold cfg.sensitivity) := by
  obtain ⟨mon, sus, ev, ana, pf, lft, ldt, cml, al, hs⟩ := s
  simp only [AppState.prevFrame] at hprev
  subst hprev
  simp only at hcad hcool hne
  by_cases hl : motionScore prev frame > motionThreshold cfg.sensitivity
  · simp only [motionStep, if_neg hcad, if_pos hl]
    refine iff_of_true ?_ hl
    exact acceptCandidate_lastDetectionTime_of_cooldown cfg now snap eid
      _ _ hcool
  · simp only [motionStep, if_neg hcad, if_neg hl]
    exact iff_of_false hne hl

theorem audioStep_fires_iff (cfg : Config) (now : ℕ) (buf : List ℕ)
    (snap eid : String) (s : AppState)
    (hcool : (now : ℤ) - (s.lastDetectionTime : ℤ)
      > (cooldownWindow cfg : ℤ))
    (hne : s.lastDetectionTime ≠ now) :
    ((audioStep cfg now buf snap eid s).lastDetectionTime = now
      ↔ audioScore buf > (100 : ℚ) - (cfg.audioSensitivity : ℚ)) := by
  by_cases hthr : audioScore buf > (100 : ℚ) - (cfg.audioSensitivity : ℚ)
  · simp only [audioStep, if_pos hthr]
    refine iff_of_true ?_ hthr
    exact acceptCandidate_lastDetectionTime_of_cooldown cfg now snap eid
      _ _ hcool
  · simp only [audioStep, if_neg hthr]
    exact iff_of_false hne hthr

theorem audioPeak_mem : ∀ (buf : List ℕ), buf ≠ [] → audioPeak buf ∈ buf := by
  intro buf
  induction buf with
  | nil => intro h; exact absurd rfl h
  | cons a t ih =>
    intro _
    cases t with
    | nil =>
      have hm : audioPeak [a] = a := Nat.max_eq_left (Nat.zero_le a)
      rw [hm]
      exact List.mem_singleton_self a
    | cons b u =>
      rcases le_total a (audioPeak (b :: u)) with h | h
      · have hm : audioPeak (a :: b :: u) = audioPeak (b :: u) :=
          Nat.max_eq_right h
        rw [hm]
        exact List.mem_cons_of_mem _ (ih (by simp))
      · have hm : audioPeak (a :: b :: u) = a := Nat.max_eq_left h
        rw [hm]
        exact List.mem_cons_self _ _

theorem le_audioPeak (buf : List ℕ) : ∀ b ∈ buf, b ≤ audioPeak buf := by
  induction buf with
  | nil => intro b hb; cases hb
  | cons a t ih =>
    intro b hb
    rcases List.mem_cons.1 hb with rfl | hb
    · exact Nat.le_max_left _ _
    · exact le_trans (ih b hb) (Nat.le_max_right _ _)

theorem sampledIndices_length (n : ℕ) :
    (sampledIndices n).length = (n + 15) / 16 := by
  induction n with
  | zero => rfl
  | succ n ih =>
    unfold sampledIndices at ih ⊢
    rw [List.range_succ, List.filter_append, List.length_append, ih]
    by_cases h : n % 16 = 0
    · have hb : (n % 16 == 0) = true := by simp [h]
      simp only [List.filter, hb]
      simp
      omega
    · have hb : (n % 16 == 0) = false := by simp [h]
      simp only [List.filter, hb]
      simp
      omega

theorem changedCount_self (d : List ℕ) : changedCount d d = 0 := by
  unfold changedCount
  rw [List.length_eq_zero]
  apply List.filter_eq_nil_iff.mpr
  intro a _
  simp [bigDiff, pixChannelDiff]

theorem motionScore_self (cur : Raster) : motionScore cur cur = 0 := by
  unfold motionScore
  rw [changedCount_self]
  simp

theorem motionScore_bounds (prev cur : Raster)
    (h4 : cur.data.length = 4 * (cur.width * cur.height))
    (hdvd : 4 ∣ cur.width * cur.height)
    (hpos : 0 < cur.width * cur.height) :
    0 ≤ motionScore prev cur ∧ motionScore prev cur ≤ 100 := by
  obtain ⟨k, hk⟩ := hdvd
  have hk0 : 0 < k := by omega
  have hwh : (cur.width : ℚ) * (cur.height : ℚ) = 4 * (k : ℚ) := by
    exact_mod_cast congrArg (fun n : ℕ => (n : ℚ)) hk
  constructor
  · unfold motionScore
    positivity
  · unfold motionScore
    have hden : ((cur.width : ℚ) * (cur.height : ℚ)) / 4 = (k : ℚ) := by
      rw [hwh]; ring
    rw [hden]
    have hc : changedCount cur.data prev.data ≤ k := by
      unfold changedCount
      calc ((sampledIndices cur.data.length).filter
            (bigDiff cur.data prev.data)).length
          ≤ (sampledIndices cur.data.length).length :=
            List.length_filter_le _ _
        _ = (cur.data.length + 15) / 16 := sampledIndices_length _
        _ = k := by rw [h4, hk]; omega
    have hc' : (changedCount cur.data prev.data : ℚ) ≤ (k : ℚ) := by
      exact_mod_cast hc
    rw [div_mul_eq_mul_div, div_le_iff₀ (by positivity)]
    nlinarith [hc']

theorem audioScore_singleton_250 : audioScore [250] = (250 : ℚ) / 255 * 100 :=
  rfl

theorem motionScore_testFrames : motionScore testFrameA testFrameB = 100 := by
  have h : changedCount testFrameB.data testFrameA.data = 1 := by decide
  unfold motionScore
  rw [h]
  norm_num [testFrameB]

theorem motionThreshold_85 : motionThreshold 85 = 15 / 2 := by
  unfold motionThreshold
  rw [max_eq_right (by norm_num)]
  norm_num

theorem charIndexFrom_lt (cs : List Char) (c : Char) :
    ∀ {i : ℕ}, charIndexFrom cs c = some i → i < cs.length := by
  induction cs with
  | nil => intro i h; cases h
  | cons a t ih =>
    intro i h
    unfold charIndexFrom at h
    by_cases ha : a = c
    · rw [if_pos ha] at h
      cases h
      simp
    · rw [if_neg ha] at h
      cases hj : charIndexFrom t c with
      | none => rw [hj] at h; cases h
      | some j =>
        rw [hj] at h
        simp at h
        have hlt := ih hj
        simp only [List.length_cons]
        omega

theorem jsIndexOf_eq (cs : List Char) (c : Char) (i : ℕ)
    (h : charIndexFrom cs c = some i) : jsIndexOf cs c = (i : Int) := by
  unfold jsIndexOf
  rw [h]

theorem jsLastIndexOf_eq (cs : List Char) (c : Char) (j' : ℕ)
    (h : charIndexFrom cs.reverse c = some j') :
    jsLastIndexOf cs c = ((cs.length - 1 - j' : ℕ) : Int) := by
  unfold jsLastIndexOf
  rw [h]

theorem extractJson_slice (cs : List Char) (i j' : ℕ)
    (hi : charIndexFrom cs '\x7b' = some i)
    (hj : charIndexFrom cs.reverse '\x7d' = some j')
    (hij : i ≤ cs.length - 1 - j') :
    extractJson cs = (cs.take (cs.length - 1 - j' + 1)).drop i := by
  have hilt : i < cs.length := charIndexFrom_lt cs _ hi
  have hjlt : j' < cs.length := by
    have h := charIndexFrom_lt cs.reverse _ hj
    simpa using h
  unfold extractJson
  rw [jsIndexOf_eq cs _ i hi, jsLastIndexOf_eq cs _ j' hj]
  simp only [jsSubstring]
  have ha : (min (max ((i : ℕ) : Int) 0) ((cs.length : ℕ) : Int)).toNat
      = i := by omega
  have hb : (min (max (((cs.length - 1 - j' : ℕ) : Int) + 1) 0)
      ((cs.length : ℕ) : Int)).toNat = cs.length - 1 - j' + 1 := by omega
  rw [ha, hb, max_eq_right (by omega), min_eq_left (by omega)]

theorem finish_fail_closed
    (parse : List Char → Option VerifyResult)
    (reqResult : Option String) (snap : String) (now : ℕ)
    (eid : String) (s : AppState)
    (h : ∀ raw r, reqResult = some raw →
      parse (extractJson
        (if raw = "" then "\x7b\x7d" else raw).toList) = some r →
      r.isSuspicious = false) :
    (analyzeFrameFinish parse reqResult snap now eid s).events = s.events
    ∧ (analyzeFrameFinish parse reqResult snap now eid s).isSuspicious
        = s.isSuspicious
    ∧ (analyzeFrameFinish parse reqResult snap now eid s).isMonitoring
        = s.isMonitoring := by
  unfold analyzeFrameFinish
  cases reqResult with
  | none => exact ⟨rfl, rfl, rfl⟩
  | some raw =>
    dsimp only
    split
    · exact ⟨rfl, rfl, rfl⟩
    · next r hr =>
        have hfalse := h raw r rfl hr
        rw [if_neg (by rw [hfalse]; exact Bool.false_ne_true)]
        exact ⟨rfl, rfl, rfl⟩

theorem take_append_take_absorb {α : Type} (a x : List α) :
    (a ++ x.take 50).take 50 = (a ++ x).take 50 := by
  rw [List.take_append_eq_append_take, List.take_append_eq_append_take,
    List.take_take]
  have h : min (50 - a.length) 50 = 50 - a.length := by omega
  rw [h]

theorem insertAll_eq (es : List DetectionEvent) :
    ∀ (l : List DetectionEvent), l.length ≤ 50 →
      insertAll l es = (es.reverse ++ l).take 50 := by
  induction es with
  | nil =>
    intro l hl
    simp only [insertAll, List.foldl_nil, List.reverse_nil,
      List.nil_append]
    rw [List.take_of_length_le hl]
  | cons e t ih =>
    intro l hl
    show insertAll (insertEvent e l) t = _
    rw [ih (insertEvent e l)
      (by simp only [insertEvent, List.length_take]; omega)]
    rw [insertEvent, take_append_take_absorb, List.reverse_cons,
      List.append_assoc, List.singleton_append]

/-! Claim theorems. -/

/-- Claim C1: on every tick a candidate is accepted only when
`now - lastDetectionTime` strictly exceeds the cooldown window, which is
1000ms with smart guard on and 300ms otherwise; on acceptance the
last-detection clock is set to `now` at once (independently of any
verification outcome, which only enters through `analyzeFrameFinish`);
with the clock at `t0`, a candidate one millisecond before the window
elapses is rejected and one a millisecond after it elapses is
accepted. -/
theorem cooldown_policy (cfg : Config) (now : ℕ)
    (snap eid reason : String) (s : AppState) :
    cooldownWindow cfg = (if cfg.isSmartGuard then 1000 else 300)
    ∧ ((now : ℤ) - (s.lastDetectionTime : ℤ) ≤ (cooldownWindow cfg : ℤ) →
        acceptCandidate cfg now snap eid reason s = s)
    ∧ ((now : ℤ) - (s.lastDetectionTime : ℤ) > (cooldownWindow cfg : ℤ) →
        (acceptCandidate cfg now snap eid reason s).lastDetectionTime = now)
    ∧ (∀ t0 : ℕ, s.lastDetectionTime = t0 →
        acceptCandidate cfg (t0 + cooldownWindow cfg - 1) snap eid reason s
          = s
        ∧ (acceptCandidate cfg (t0 + cooldownWindow cfg + 1) snap eid reason
            s).lastDetectionTime = t0 + cooldownWindow cfg + 1) := by
  have hw : 1 ≤ cooldownWindow cfg := by
    unfold cooldownWindow; split <;> omega
  refine ⟨rfl,
    acceptCandidate_of_not_cooldown cfg now snap eid reason s,
    acceptCandidate_lastDetectionTime_of_cooldown cfg now snap eid reason s,
    ?_⟩
  intro t0 ht
  constructor
  · refine acceptCandidate_of_not_cooldown cfg _ snap eid reason s ?_
    rw [ht]
    have : t0 + cooldownWindow cfg - 1 = t0 + (cooldownWindow cfg - 1) := by
      omega
    rw [this]
    push_cast
    omega
  · refine acceptCandidate_lastDetectionTime_of_cooldown cfg _ snap eid
      reason s ?_
    rw [ht]
    push_cast
    omega

theorem cooldown_policy_witness :
    ((1999 : ℤ) - (testState.lastDetectionTime : ℤ)
        ≤ (cooldownWindow testConfig : ℤ)
      ∧ acceptCandidate testConfig 1999 "snap" "id" "r" testState
          = testState)
    ∧ ((2001 : ℤ) - (testState.lastDetectionTime : ℤ)
        > (cooldownWindow testConfig : ℤ)
      ∧ (acceptCandidate testConfig 2001 "snap" "id" "r"
          testState).lastDetectionTime = 2001) :=
  ⟨⟨by decide,
    (cooldown_policy testConfig 1999 "snap" "id" "r" testState).2.1
      (by decide)⟩,
   ⟨by decide,
    (cooldown_policy testConfig 2001 "snap" "id" "r" testState).2.2.1
      (by decide)⟩⟩

/-- Claim C2: for every motion sensitivity in 1..99 the motion
threshold equals `max(0.5, (100 - motionSensitivity) / 2)`, hence is at
least 0.5, and on a tick that reaches the motion path (previous raster
present, cadence gate passed, cooldown elapsed) a motion candidate is
accepted exactly when the motion score strictly exceeds that
threshold. -/
theorem motion_threshold_policy (sens : ℕ) (h1 : 1 ≤ sens)
    (h2 : sens ≤ 99) :
    motionThreshold sens = max (1 / 2) (((100 : ℚ) - (sens : ℚ)) / 2)
    ∧ (1 / 2 : ℚ) ≤ motionThreshold sens
    ∧ ∀ (cfg : Config) (now : ℕ) (frame prev : Raster)
        (snap eid : String) (s : AppState),
        cfg.sensitivity = sens →
        s.prevFrame = some prev →
        ¬ ((now : ℤ) - (s.lastFrameTime : ℤ) < 100) →
        (now : ℤ) - (s.lastDetectionTime : ℤ) > (cooldownWindow cfg : ℤ) →
        s.lastDetectionTime ≠ now →
        ((motionStep cfg now frame snap eid s).lastDetectionTime = now
          ↔ motionScore prev frame > motionThreshold sens) := by
  refine ⟨rfl, le_max_left _ _, ?_⟩
  intro cfg now frame prev snap eid s hsens hprev hcad hcool hne
  subst hsens
  exact motionStep_fires_iff cfg now frame prev snap eid s hprev hcad
    hcool hne

theorem motion_threshold_policy_witness :
    ((1 : ℕ) ≤ 85 ∧ (85 : ℕ) ≤ 99)
    ∧ motionThreshold 85 = max (1 / 2) (((100 : ℚ) - ((85 : ℕ) : ℚ)) / 2)
    ∧ (1 / 2 : ℚ) ≤ motionThreshold 85
    ∧ ((motionStep testConfig 2001 testFrameB "snap" "id"
          testStateM).lastDetectionTime = 2001
        ↔ motionScore testFrameA testFrameB > motionThreshold 85) := by
  have h := motion_threshold_policy 85 (by decide) (by decide)
  exact ⟨⟨by decide, by decide⟩, h.1, h.2.1,
    h.2.2 testConfig 2001 testFrameB testFrameA "snap" "id" testStateM
      rfl rfl (by decide) (by decide) (by decide)⟩

/-- Claim C3: for well-formed equal-sized raster pairs the motion score
(the fraction of stride-4-sampled pixels whose summed absolute R, G, B
differences exceed 45, times 100) lies in 0..100; two identical rasters
score exactly 0; and on a tick with no previous raster the displayed
motion level stays 0 and no motion candidate fires (no event, no
cooldown-clock movement, no alarm change). -/
theorem motion_score_policy :
    (∀ prev cur : Raster,
        prev.data.length = cur.data.length →
        cur.data.length = 4 * (cur.width * cur.height) →
        4 ∣ cur.width * cur.height →
        0 < cur.width * cur.height →
        0 ≤ motionScore prev cur ∧ motionScore prev cur ≤ 100)
    ∧ (∀ cur : Raster, motionScore cur cur = 0)
    ∧ (∀ (cfg : Config) (now : ℕ) (frame : Raster) (snap eid : String)
        (s : AppState),
        s.prevFrame = none → s.currentMotionLevel = 0 →
        (motionStep cfg now frame snap eid s).currentMotionLevel = 0
        ∧ (motionStep cfg now frame snap eid s).events = s.events
        ∧ (motionStep cfg now frame snap eid s).lastDetectionTime
            = s.lastDetectionTime
        ∧ (motionStep cfg now frame snap eid s).isSuspicious
            = s.isSuspicious) := by
  refine ⟨fun prev cur _ h4 hdvd hpos =>
    motionScore_bounds prev cur h4 hdvd hpos, motionScore_self, ?_⟩
  intro cfg now frame snap eid s hprev hcm
  obtain ⟨mon, sus, ev, ana, pf, lft, ldt, cml, al, hs⟩ := s
  simp only [AppState.prevFrame] at hprev
  simp only [AppState.currentMotionLevel] at hcm
  subst hprev
  subst hcm
  by_cases hcad : (now : ℤ) - (lft : ℤ) < 100
  · simp only [motionStep, if_pos hcad]
    exact ⟨by trivial, by trivial, by trivial, by trivial⟩
  · simp only [motionStep, if_neg hcad]
    exact ⟨by trivial, by trivial, by trivial, by trivial⟩

theorem motion_score_policy_witness :
    (testFrameA.data.length = testFrameB.data.length
      ∧ testFrameB.data.length = 4 * (testFrameB.width * testFrameB.height)
      ∧ 4 ∣ testFrameB.width * testFrameB.height
      ∧ 0 < testFrameB.width * testFrameB.height
      ∧ 0 ≤ motionScore testFrameA testFrameB
      ∧ motionScore testFrameA testFrameB ≤ 100)
    ∧ motionScore testFrameB testFrameB = 0
    ∧ (testState.prevFrame = none
      ∧ testState.currentMotionLevel = 0
      ∧ (motionStep testConfig 50 testFrameB "snap" "id"
          testState).currentMotionLevel = 0
      ∧ (motionStep testConfig 50 testFrameB "snap" "id" testState).events
          = testState.events) := by
  have hb := motion_score_policy.1 testFrameA testFrameB (by decide)
    (by decide) (by decide) (by decide)
  have hf := motion_score_policy.2.2 testConfig 50 testFrameB "snap" "id"
    testState rfl rfl
  exact ⟨⟨by decide, by decide, by decide, by decide, hb.1, hb.2⟩,
    motion_score_policy.2.1 testFrameB, ⟨rfl, rfl, hf.1, hf.2.1⟩⟩

/-- Claim C4: the audio score is the maximum magnitude bin of the
buffer (an element of the buffer at least as large as every other)
normalized by 255 to the 0..100 range, and on a tick whose cooldown has
elapsed an audio candidate is accepted exactly when that score strictly
exceeds `100 - audioSensitivity`. -/
theorem audio_peak_policy (buf : List ℕ) (hne : buf ≠ []) :
    (audioPeak buf ∈ buf
      ∧ audioScore buf = (audioPeak buf : ℚ) / 255 * 100
      ∧ ∀ b ∈ buf, b ≤ audioPeak buf)
    ∧ ∀ (cfg : Config) (now : ℕ) (snap eid : String) (s : AppState),
        (now : ℤ) - (s.lastDetectionTime : ℤ) > (cooldownWindow cfg : ℤ) →
        s.lastDetectionTime ≠ now →
        ((audioStep cfg now buf snap eid s).lastDetectionTime = now
          ↔ audioScore buf > (100 : ℚ) - (cfg.audioSensitivity : ℚ)) := by
  refine ⟨⟨audioPeak_mem buf hne, rfl, le_audioPeak buf⟩, ?_⟩
  intro cfg now snap eid s hcool hne2
  exact audioStep_fires_iff cfg now buf snap eid s hcool hne2

theorem audio_peak_policy_witness :
    ([250] ≠ ([] : List ℕ))
    ∧ audioPeak [250] ∈ [250]
    ∧ ((2005 : ℤ) - (testState.lastDetectionTime : ℤ)
        > (cooldownWindow testConfig : ℤ)
      ∧ testState.lastDetectionTime ≠ 2005)
    ∧ ((audioStep testConfig 2005 [250] "snap" "id"
          testState).lastDetectionTime = 2005
        ↔ audioScore [250] > (100 : ℚ)
            - (testConfig.audioSensitivity : ℚ)) := by
  have h := audio_peak_policy [250] (by decide)
  exact ⟨by decide, h.1.1, ⟨by decide, by decide⟩,
    h.2 testConfig 2005 "snap" "id" testState (by decide) (by decide)⟩

/-- Claim C9: with smart guard off, every accepted candidate
immediately appends exactly one DetectionEvent with the fixed reason
"Instant Sound Alert" or "Instant Motion Alert" (by signal), with
`isSuspicious = true`, and raises the alarm, with no verifier
involvement. -/
theorem instant_alert_path (cfg : Config) (now : ℕ) (buf : List ℕ)
    (frame prev : Raster) (snap eid : String) (s : AppState)
    (hsg : cfg.isSmartGuard = false) :
    (audioScore buf > (100 : ℚ) - (cfg.audioSensitivity : ℚ) →
      (now : ℤ) - (s.lastDetectionTime : ℤ) > (cooldownWindow cfg : ℤ) →
      (audioStep cfg now buf snap eid s).events
          = insertEvent ⟨eid, now, snap, true, "Instant Sound Alert"⟩
            s.events
        ∧ (audioStep cfg now buf snap eid s).isSuspicious = true)
    ∧ (s.prevFrame = some prev →
      ¬ ((now : ℤ) - (s.lastFrameTime : ℤ) < 100) →
      motionScore prev frame > motionThreshold cfg.sensitivity →
      (now : ℤ) - (s.lastDetectionTime : ℤ) > (cooldownWindow cfg : ℤ) →
      (motionStep cfg now frame snap eid s).events
          = insertEvent ⟨eid, now, snap, true, "Instant Motion Alert"⟩
            s.events
        ∧ (motionStep cfg now frame snap eid s).isSuspicious = true) := by
  obtain ⟨mon, sus, ev, ana, pf, lft, ldt, cml, al, hs⟩ := s
  constructor
  · intro hthr hcool
    simp only at hcool
    simp only [audioStep, if_pos hthr]
    rw [acceptCandidate_instant]
    · exact ⟨rfl, rfl⟩
    · exact hsg
    · exact hcool
  · intro hprev hcad hl hcool
    simp only [AppState.prevFrame] at hprev
    subst hprev
    simp only at hcad hcool
    simp only [motionStep, if_neg hcad, if_pos hl]
    rw [acceptCandidate_instant]
    · exact ⟨rfl, rfl⟩
    · exact hsg
    · exact hcool

theorem instant_alert_path_witness :
    (testConfigInstant.isSmartGuard = false
      ∧ audioScore [250] > (100 : ℚ)
          - (testConfigInstant.audioSensitivity : ℚ)
      ∧ (2005 : ℤ) - (testState.lastDetectionTime : ℤ)
          > (cooldownWindow testConfigInstant : ℤ))
    ∧ (audioStep testConfigInstant 2005 [250] "snap" "id"
          testState).events
        = insertEvent ⟨"id", 2005, "snap", true, "Instant Sound Alert"⟩
          testState.events
    ∧ (audioStep testConfigInstant 2005 [250] "snap" "id"
        testState).isSuspicious = true
    ∧ (motionStep testConfigInstant 2001 testFrameB "snap" "id"
          testStateM).events
        = insertEvent ⟨"id", 2001, "snap", true, "Instant Motion Alert"⟩
          testStateM.events := by
  have hthr : audioScore [250] > (100 : ℚ)
      - (testConfigInstant.audioSensitivity : ℚ) := by
    rw [audioScore_singleton_250]
    norm_num [testConfigInstant]
  have hl : motionScore testFrameA testFrameB
      > motionThreshold testConfigInstant.sensitivity := by
    show motionScore testFrameA testFrameB > motionThreshold 85
    rw [motionScore_testFrames, motionThreshold_85]
    norm_num
  have h := instant_alert_path testConfigInstant 2005 [250] testFrameB
    testFrameA "snap" "id" testState rfl
  have h2 := instant_alert_path testConfigInstant 2001 [250] testFrameB
    testFrameA "snap" "id" testStateM rfl
  have ha := h.1 hthr (by decide)
  have hm := h2.2 rfl (by decide) hl (by decide)
  exact ⟨⟨rfl, hthr, by decide⟩, ha.1, ha.2, hm.1⟩

/-- Claim C5: the event log holds at most 50 entries, newest first.
Every insertion prepends the new event and keeps only the newest 50;
below the cap an insertion is a plain prepend; inserting 51 events in
sequence into an empty log leaves exactly 50, newest first, with the
first (oldest) event absent. -/
theorem log_cap_policy :
    (∀ (e : DetectionEvent) (log : List DetectionEvent),
        (insertEvent e log).length ≤ 50)
    ∧ (∀ (e : DetectionEvent) (log : List DetectionEvent),
        log.length ≤ 49 → insertEvent e log = e :: log)
    ∧ ∀ (e0 : DetectionEvent) (es : List DetectionEvent),
        es.length = 50 → e0 ∉ es →
        insertAll [] (e0 :: es) = es.reverse
        ∧ (insertAll [] (e0 :: es)).length = 50
        ∧ e0 ∉ insertAll [] (e0 :: es) := by
  refine ⟨?_, ?_, ?_⟩
  · intro e log
    simp only [insertEvent, List.length_take]
    omega
  · intro e log h
    rw [insertEvent,
      List.take_of_length_le (by simp only [List.length_cons]; omega)]
  · intro e0 es hlen hmem
    have h1 : insertAll [] (e0 :: es) = es.reverse := by
      rw [insertAll_eq (e0 :: es) [] (by simp), List.append_nil,
        List.reverse_cons]
      exact List.take_left' (by simp [hlen])
    refine ⟨h1, by rw [h1]; simp [hlen], ?_⟩
    rw [h1]
    simpa [List.mem_reverse] using hmem

theorem log_cap_policy_witness :
    (testEvents.length = 50 ∧ testEvent ∉ testEvents)
    ∧ insertAll [] (testEvent :: testEvents) = testEvents.reverse
    ∧ (insertAll [] (testEvent :: testEvents)).length = 50
    ∧ testEvent ∉ insertAll [] (testEvent :: testEvents)
    ∧ (([] : List DetectionEvent).length ≤ 49
      ∧ insertEvent testEvent [] = [testEvent]) := by
  have h := log_cap_policy.2.2 testEvent testEvents (by decide) (by decide)
  exact ⟨⟨by decide, by decide⟩, h.1, h.2.1, h.2.2,
    by decide, log_cap_policy.2.1 testEvent [] (by decide)⟩

/-- Claim C6: the verifier adapter slices the raw response between the
first opening brace and the last closing brace, and every verification
whose request fails, whose parse fails, or whose parsed result has
`isSuspicious = false` creates no detection event and leaves the alarm
and monitoring state unchanged: failure degrades to no alert. -/
theorem verifier_fail_closed :
    (∀ (cs : List Char) (i j' : ℕ),
        charIndexFrom cs '\x7b' = some i →
        charIndexFrom cs.reverse '\x7d' = some j' →
        i ≤ cs.length - 1 - j' →
        extractJson cs = (cs.take (cs.length - 1 - j' + 1)).drop i)
    ∧ ∀ (parse : List Char → Option VerifyResult)
        (reqResult : Option String) (snap : String) (now : ℕ)
        (eid : String) (s : AppState),
        (∀ raw r, reqResult = some raw →
          parse (extractJson
            (if raw = "" then "\x7b\x7d" else raw).toList) = some r →
          r.isSuspicious = false) →
        (analyzeFrameFinish parse reqResult snap now eid s).events
            = s.events
        ∧ (analyzeFrameFinish parse reqResult snap now eid s).isSuspicious
            = s.isSuspicious
        ∧ (analyzeFrameFinish parse reqResult snap now eid s).isMonitoring
            = s.isMonitoring :=
  ⟨extractJson_slice, finish_fail_closed⟩

theorem verifier_fail_closed_witness :
    (charIndexFrom "xx\x7by\x7dzz".toList '\x7b' = some 2
      ∧ charIndexFrom "xx\x7by\x7dzz".toList.reverse '\x7d' = some 2
      ∧ 2 ≤ "xx\x7by\x7dzz".toList.length - 1 - 2
      ∧ extractJson "xx\x7by\x7dzz".toList
          = ("xx\x7by\x7dzz".toList.take
              ("xx\x7by\x7dzz".toList.length - 1 - 2 + 1)).drop 2)
    ∧ ((analyzeFrameFinish (fun _ => none) (some "junk") "snap" 7 "id"
          testStateA).events = testStateA.events
      ∧ (analyzeFrameFinish (fun _ => none) (some "junk") "snap" 7 "id"
          testStateA).isSuspicious = testStateA.isSuspicious) := by
  have he := verifier_fail_closed.1 "xx\x7by\x7dzz".toList 2 2
    (by decide) (by decide) (by decide)
  have hf := verifier_fail_closed.2 (fun _ => none) (some "junk") "snap"
    7 "id" testStateA (by intro raw r hraw hp; simp at hp)
  exact ⟨⟨by decide, by decide, by decide, he⟩, hf.1, hf.2.1⟩

/-- Claim C7: the verifier call is single-flight: a call made while the
in-flight flag is set returns at once leaving the state untouched, and
the completion half clears the flag on every path (success, negative
result, request failure, parse failure). -/
theorem single_flight (s : AppState) :
    (s.isAnalyzing = true → analyzeFrameStart s = (false, s))
    ∧ ∀ (parse : List Char → Option VerifyResult)
        (reqResult : Option String) (snap : String) (now : ℕ)
        (eid : String),
        (analyzeFrameFinish parse reqResult snap now eid s).isAnalyzing
          = false := by
  refine ⟨analyzeFrameStart_of_inflight s, ?_⟩
  intro parse reqResult snap now eid
  unfold analyzeFrameFinish
  rfl

theorem single_flight_witness :
    (testStateA.isAnalyzing = true
      ∧ analyzeFrameStart testStateA = (false, testStateA))
    ∧ (analyzeFrameFinish (fun _ => none) none "snap" 0 "id"
        testStateA).isAnalyzing = false :=
  ⟨⟨rfl, (single_flight testStateA).1 rfl⟩,
   (single_flight testStateA).2 (fun _ => none) none "snap" 0 "id"⟩

/-- Claim C8, counterexample: stopping a session does not clear the
session-scoped run state.  On a concrete state with a previous raster,
nonzero scores and a nonzero cooldown clock, `stopCamera` leaves the
previous raster present, the scores nonzero and the cooldown clock
nonzero, contradicting the claim that they are reset. -/
theorem stop_does_not_clear_run_state :
    (stopCamera testStateC).prevFrame = some testFrameA
    ∧ (stopCamera testStateC).currentMotionLevel = 5
    ∧ (stopCamera testStateC).audioLevel = 9
    ∧ (stopCamera testStateC).lastDetectionTime = 777 := by
  refine ⟨rfl, rfl, rfl, rfl⟩

/-- Claim C8, amended: stopping a session releases the stream and
clears the monitoring and alarm flags, and leaves the event log's
length and contents unchanged; the previous raster sample, the motion
and audio scores, and the cooldown clock are not reset and keep their
values. -/
theorem stop_session_effect (s : AppState) :
    (stopCamera s).hasStream = false
    ∧ (stopCamera s).isMonitoring = false
    ∧ (stopCamera s).isSuspicious = false
    ∧ (stopCamera s).events = s.events
    ∧ (stopCamera s).prevFrame = s.prevFrame
    ∧ (stopCamera s).currentMotionLevel = s.currentMotionLevel
    ∧ (stopCamera s).audioLevel = s.audioLevel
    ∧ (stopCamera s).lastDetectionTime = s.lastDetectionTime
    ∧ (stopCamera s).lastFrameTime = s.lastFrameTime := by
  refine ⟨rfl, rfl, rfl, rfl, rfl, rfl, rfl, rfl, rfl⟩

/-- Claim C10: with smart guard on, a candidate that passes its
threshold and the cooldown check while a verification is in flight
still moves the last-detection clock to `now` before the single-flight
guard drops the call: no event is produced, the alarm and in-flight
flags are unchanged, yet every subsequent candidate within a full
cooldown window of `now` is rejected. -/
theorem inflight_candidate_consumes_cooldown (cfg : Config) (now : ℕ)
    (buf : List ℕ) (snap eid : String) (s : AppState)
    (hsg : cfg.isSmartGuard = true)
    (hfl : s.isAnalyzing = true)
    (hthr : audioScore buf > (100 : ℚ) - (cfg.audioSensitivity : ℚ))
    (hcool : (now : ℤ) - (s.lastDetectionTime : ℤ)
      > (cooldownWindow cfg : ℤ)) :
    (audioStep cfg now buf snap eid s).lastDetectionTime = now
    ∧ (audioStep cfg now buf snap eid s).events = s.events
    ∧ (audioStep cfg now buf snap eid s).isSuspicious = s.isSuspicious
    ∧ (audioStep cfg now buf snap eid s).isAnalyzing = true
    ∧ ∀ (now' : ℕ) (buf' : List ℕ) (snap' eid' : String),
        (now' : ℤ) - (now : ℤ) ≤ (cooldownWindow cfg : ℤ) →
        (audioStep cfg now' buf' snap' eid'
            (audioStep cfg now buf snap eid s)).lastDetectionTime = now
        ∧ (audioStep cfg now' buf' snap' eid'
            (audioStep cfg now buf snap eid s)).events = s.events := by
  have hstep : audioStep cfg now buf snap eid s
      = { s with audioLevel := audioScore buf, lastDetectionTime := now } := by
    unfold audioStep acceptCandidate
    rw [if_pos hthr]
    dsimp only
    rw [if_pos hcool, if_pos hsg, analyzeFrameStart_of_inflight]
    exact hfl
  refine ⟨by rw [hstep], by rw [hstep], by rw [hstep],
    by rw [hstep]; exact hfl, ?_⟩
  intro now' buf' snap' eid' hlt
  rw [hstep]
  unfold audioStep
  dsimp only
  split
  · rw [acceptCandidate_of_not_cooldown]
    · exact ⟨rfl, rfl⟩
    · exact hlt
  · exact ⟨rfl, rfl⟩

theorem inflight_candidate_consumes_cooldown_witness :
    (testConfig.isSmartGuard = true
      ∧ testStateA.isAnalyzing = true
      ∧ audioScore [250] > (100 : ℚ) - (testConfig.audioSensitivity : ℚ)
      ∧ (2005 : ℤ) - (testStateA.lastDetectionTime : ℤ)
          > (cooldownWindow testConfig : ℤ))
    ∧ (audioStep testConfig 2005 [250] "snap" "id"
        testStateA).lastDetectionTime = 2005
    ∧ (audioStep testConfig 2005 [250] "snap" "id" testStateA).events
        = testStateA.events
    ∧ (audioStep testConfig 2500 [250] "s2" "i2"
        (audioStep testConfig 2005 [250] "snap" "id"
          testStateA)).lastDetectionTime = 2005 := by
  have h := inflight_candidate_consumes_cooldown testConfig 2005 [250]
    "snap" "id" testStateA rfl rfl (by norm_num [audioScore, audioPeak,
      testConfig]) (by decide)
  exact ⟨⟨rfl, rfl, by norm_num [audioScore, audioPeak, testConfig],
      by decide⟩,
    h.1, h.2.1,
    (h.2.2.2.2 2500 [250] "s2" "i2" (by decide)).1⟩

end SentryAI
